import Mathlib

/-!
Verification of the az-email-sender core against its natural-language
specification.  The definitions below are a shallow embedding of the Go
sources: the retry loop of Client.SendWithContext, the single-attempt
request logic of Client.sendSingleAttempt, the polling loop of
Client.WaitForCompletionWithContext together with isFinalStatus, the
HMAC-SHA256 request signing of Client.generateHMACSignature and
Client.addAuthentication, and parseConnectionString.  Network and JSON
effects are modelled as explicit environments (one outcome per attempt or
poll iteration); time stamps are abstract naturals.
-/

/-! ## Request engine: data model -/

/-- Wire response of a successful send, as parsed from the JSON body
(fields ID, MessageID, Status, Timestamp of the Go SendResponse). -/
structure SendResponse where
  id : String
  messageID : String
  status : String
  timestamp : Nat
  deriving DecidableEq, Repr

/-- Error body of a non-2xx API response (the Message field of the Go
Error struct used by sendSingleAttempt). -/
structure ApiErrorBody where
  message : String
  deriving DecidableEq, Repr

/-- The ways a single send attempt fails in sendSingleAttempt. -/
inductive SendError where
  | httpRequestFailed (msg : String)
  | apiErrorRaw (statusCode : Nat) (body : String)
  | apiErrorParsed (statusCode : Nat) (message : String)
  | parseFailed (body : String)
  deriving DecidableEq, Repr

/-- Outcome of executing the HTTP request of one attempt: a transport
level failure, or a response with a status code and a body. -/
inductive HTTPResult where
  | transportError (msg : String)
  | response (statusCode : Nat) (body : String)
  deriving DecidableEq, Repr

/-- One attempt of Client.sendSingleAttempt, after the request was built:
transport errors surface as errors; a response with status outside
[200, 300) is converted to an API error (parsed from the body when
possible); a 2xx response is parsed into a SendResponse.  The two JSON
decoders are passed as parameters. -/
def sendSingleAttempt (parseResponse : String → Option SendResponse)
    (parseApiError : String → Option ApiErrorBody) (result : HTTPResult) :
    Except SendError SendResponse :=
  match result with
  | .transportError msg => .error (.httpRequestFailed msg)
  | .response statusCode respBody =>
    if statusCode < 200 ∨ 300 ≤ statusCode then
      match parseApiError respBody with
      | none => .error (.apiErrorRaw statusCode respBody)
      | some apiError => .error (.apiErrorParsed statusCode apiError.message)
    else
      match parseResponse respBody with
      | none => .error (.parseFailed respBody)
      | some resp => .ok resp

/-- The stamping Client.SendWithContext performs on a successful attempt
before returning: MessageID is set to ID and the receipt timestamp is
stored. -/
def stampResponse (resp : SendResponse) (now : Nat) : SendResponse :=
  { resp with messageID := resp.id, timestamp := now }

/-- Final outcome of Client.SendWithContext: a stamped response, or the
aggregate failure naming the total attempt count and wrapping the last
attempt error. -/
inductive SendFinal where
  | ok (resp : SendResponse)
  | failedAfter (attempts : Nat) (lastErr : SendError)
  deriving DecidableEq, Repr

/-- The retry loop of Client.SendWithContext.  The environment assigns to
every attempt index its outcome; attempt counting starts at the given
index and remaining counts the retries still allowed after the current
attempt. -/
def sendAux (outcomes : Nat → Except SendError SendResponse) (now : Nat) :
    Nat → Nat → SendFinal
  | attempt, 0 =>
    match outcomes attempt with
    | .ok resp => .ok (stampResponse resp now)
    | .error e => .failedAfter (attempt + 1) e
  | attempt, remaining + 1 =>
    match outcomes attempt with
    | .ok resp => .ok (stampResponse resp now)
    | .error _ => sendAux outcomes now (attempt + 1) remaining

/-- Client.SendWithContext: up to maxRetries + 1 attempts, returning the
first successful attempt response (stamped) or an aggregate failure. -/
def sendWithContext (maxRetries : Nat) (now : Nat)
    (outcomes : Nat → Except SendError SendResponse) : SendFinal :=
  sendAux outcomes now 0 maxRetries

/-! ## Status poller -/

/-- Modelled from the spec: the terminal status constant Delivered; the
library file declaring the EmailStatus constants is not under src/, and
the glossary fixes the terminal set as Delivered, Failed, Canceled. -/
def StatusDelivered : String := "Delivered"

/-- Modelled from the spec: the terminal status constant Failed. -/
def StatusFailed : String := "Failed"

/-- Modelled from the spec: the terminal status constant Canceled. -/
def StatusCanceled : String := "Canceled"

/-- isFinalStatus from az_email_sender.go: a status is final when it is
one of the statuses in the finalStatuses list. -/
def isFinalStatus (status : String) : Bool :=
  let finalStatuses := [StatusDelivered, StatusFailed, StatusCanceled]
  finalStatuses.any (fun finalStatus => status == finalStatus)

/-- Wire result of one status fetch, as parsed from the JSON body and
stamped by Client.GetStatusWithContext (fields ID, Status, Timestamp of
the Go StatusResponse). -/
structure StatusResponse where
  id : String
  status : String
  timestamp : Nat
  deriving DecidableEq, Repr

/-- Outcome of one poll iteration's status fetch: an error from
GetStatusWithContext, or a parsed StatusResponse. -/
inductive FetchOutcome where
  | fetchErr (e : String)
  | fetched (s : StatusResponse)
  deriving DecidableEq, Repr

/-- The three ways Client.WaitForCompletionWithContext returns: a final
status with no error, a context timeout in the fetch-error branch (which
returns a nil status), and a context timeout at the select after a
successful fetch (which returns that iteration's status). -/
inductive WaitResult where
  | completed (s : StatusResponse)
  | timedOutNone
  | timedOutLast (s : StatusResponse)
  deriving DecidableEq, Repr

/-- Caller-visible callback invocations of the polling loop: OnError on
a failed fetch, OnStatusUpdate on every successful fetch. -/
inductive CallbackEvent where
  | errCb (e : String)
  | statusCb (s : StatusResponse)
  deriving DecidableEq, Repr

/-- The polling loop of Client.WaitForCompletionWithContext.  The
environment gives each iteration's fetch outcome; ctxDone tells, for each
iteration, whether the context (deadline or cancellation) wins the select
race against the ticker at that iteration's wait point.  Fuel bounds the
modelled run; none means the loop was still running when fuel ran out.
Each iteration: on fetch error invoke OnError, then return the context
error (with no status) if the context is done, else continue; on fetch
success invoke OnStatusUpdate, return the status if final, else return
the status with the context error if the context is done, else
continue. -/
def waitAux (events : Nat → FetchOutcome) (ctxDone : Nat → Bool) :
    Nat → Nat → List CallbackEvent × Option WaitResult
  | _, 0 => ([], none)
  | i, fuel + 1 =>
    match events i with
    | .fetchErr e =>
      if ctxDone i then ([.errCb e], some .timedOutNone)
      else
        let rest := waitAux events ctxDone (i + 1) fuel
        (.errCb e :: rest.1, rest.2)
    | .fetched s =>
      if isFinalStatus s.status then ([.statusCb s], some (.completed s))
      else if ctxDone i then ([.statusCb s], some (.timedOutLast s))
      else
        let rest := waitAux events ctxDone (i + 1) fuel
        (.statusCb s :: rest.1, rest.2)

/-- Client.WaitForCompletionWithContext, started at iteration 0. -/
def waitForCompletion (events : Nat → FetchOutcome) (ctxDone : Nat → Bool)
    (fuel : Nat) : List CallbackEvent × Option WaitResult :=
  waitAux events ctxDone 0 fuel

/-- A poll iteration that does not end the loop: the context is not done
there and any fetched status is non-final. -/
def nonTerminalStep (events : Nat → FetchOutcome) (ctxDone : Nat → Bool)
    (j : Nat) : Prop :=
  ctxDone j = false ∧
    ∀ s : StatusResponse, events j = .fetched s → isFinalStatus s.status = false

/-! ## SHA-256, HMAC-SHA256 and base64

The Go client calls crypto/sha256, crypto/hmac and encoding/base64 from
the standard library; they are embedded here as executable functions on
byte lists (bytes are naturals below 256, 32-bit words are naturals
reduced modulo 2 ^ 32). -/

/-- Rotation of a 32-bit word to the right by n positions, with the
result reduced modulo 2 ^ 32. -/
def rotr32 (x n : Nat) : Nat := ((x >>> n) ||| (x <<< (32 - n))) % 2 ^ 32

/-- Message-schedule sigma 0 of SHA-256. -/
def sha256s0 (x : Nat) : Nat := (rotr32 x 7) ^^^ (rotr32 x 18) ^^^ (x >>> 3)

/-- Message-schedule sigma 1 of SHA-256. -/
def sha256s1 (x : Nat) : Nat := (rotr32 x 17) ^^^ (rotr32 x 19) ^^^ (x >>> 10)

/-- Compression Sigma 0 of SHA-256. -/
def sha256S0 (x : Nat) : Nat := (rotr32 x 2) ^^^ (rotr32 x 13) ^^^ (rotr32 x 22)

/-- Compression Sigma 1 of SHA-256. -/
def sha256S1 (x : Nat) : Nat := (rotr32 x 6) ^^^ (rotr32 x 11) ^^^ (rotr32 x 25)

/-- Round-constant table of the SHA-256 compression function (the cube
root fractions of the first 64 primes), in decimal. -/
def sha256K : Array Nat := #[
  1116352408, 1899447441, 3049323471, 3921009573, 961987163,
  1508970993, 2453635748, 2870763221, 3624381080, 310598401,
  607225278, 1426881987, 1925078388, 2162078206, 2614888103,
  3248222580, 3835390401, 4022224774, 264347078, 604807628,
  770255983, 1249150122, 1555081692, 1996064986, 2554220882,
  2821834349, 2952996808, 3210313671, 3336571891, 3584528711,
  113926993, 338241895, 666307205, 773529912, 1294757372,
  1396182291, 1695183700, 1986661051, 2177026350, 2456956037,
  2730485921, 2820302411, 3259730800, 3345764771, 3516065817,
  3600352804, 4094571909, 275423344, 430227734, 506948616,
  659060556, 883997877, 958139571, 1322822218, 1537002063,
  1747873779, 1955562222, 2024104815, 2227730452, 2361852424,
  2428436474, 2756734187, 3204031479, 3329325298]

/-- Working state of the SHA-256 compression function. -/
structure Sha256State where
  a : Nat
  b : Nat
  c : Nat
  d : Nat
  e : Nat
  f : Nat
  g : Nat
  h : Nat
  deriving Repr

/-- Starting hash state of SHA-256, in decimal. -/
def sha256Init : Sha256State :=
  ⟨1779033703, 3144134277, 1013904242, 2773480762, 1359893119, 2600822924, 528734635, 1541459225⟩

/-- Big-endian 8-byte encoding of a natural number. -/
def bigEndian64 (n : Nat) : List Nat :=
  [(n >>> 56) % 256, (n >>> 48) % 256, (n >>> 40) % 256, (n >>> 32) % 256,
   (n >>> 24) % 256, (n >>> 16) % 256, (n >>> 8) % 256, n % 256]

/-- SHA-256 padding: append 0x80, zeros up to 56 mod 64, then the bit
length as a big-endian 64-bit integer. -/
def sha256Pad (msg : List Nat) : List Nat :=
  msg ++ 0x80 :: List.replicate ((119 - msg.length % 64) % 64) 0 ++ bigEndian64 (8 * msg.length)

/-- Big-endian 32-bit words from a byte list. -/
def bytesToWords : List Nat → List Nat
  | b0 :: b1 :: b2 :: b3 :: rest =>
    (((b0 * 256 + b1) * 256 + b2) * 256 + b3) :: bytesToWords rest
  | _ => []

/-- Extend the 16 block words to the 64-entry SHA-256 message schedule. -/
def sha256ExtendWords (ws : Array Nat) : Array Nat :=
  (List.range 48).foldl (fun ws j =>
    let i := j + 16
    ws.push ((sha256s1 (ws.getD (i - 2) 0) + ws.getD (i - 7) 0 +
              sha256s0 (ws.getD (i - 15) 0) + ws.getD (i - 16) 0) % 2 ^ 32)) ws

/-- One SHA-256 compression round. -/
def sha256Round (st : Sha256State) (k w : Nat) : Sha256State :=
  let ch := (st.e &&& st.f) ^^^ ((st.e ^^^ (2 ^ 32 - 1)) &&& st.g)
  let maj := (st.a &&& st.b) ^^^ (st.a &&& st.c) ^^^ (st.b &&& st.c)
  let t1 := (st.h + sha256S1 st.e + ch + k + w) % 2 ^ 32
  let t2 := (sha256S0 st.a + maj) % 2 ^ 32
  ⟨(t1 + t2) % 2 ^ 32, st.a, st.b, st.c, (st.d + t1) % 2 ^ 32, st.e, st.f, st.g⟩

/-- Process one 64-byte block. -/
def sha256Block (st : Sha256State) (block : List Nat) : Sha256State :=
  let ws := sha256ExtendWords (bytesToWords block).toArray
  let fin := (List.range 64).foldl
    (fun s i => sha256Round s (sha256K.getD i 0) (ws.getD i 0)) st
  ⟨(st.a + fin.a) % 2 ^ 32, (st.b + fin.b) % 2 ^ 32, (st.c + fin.c) % 2 ^ 32,
   (st.d + fin.d) % 2 ^ 32, (st.e + fin.e) % 2 ^ 32, (st.f + fin.f) % 2 ^ 32,
   (st.g + fin.g) % 2 ^ 32, (st.h + fin.h) % 2 ^ 32⟩

/-- Process the given number of 64-byte blocks of a padded message. -/
def sha256Blocks (st : Sha256State) : Nat → List Nat → Sha256State
  | 0, _ => st
  | n + 1, bs => sha256Blocks (sha256Block st (bs.take 64)) n (bs.drop 64)

/-- Big-endian bytes of a list of 32-bit words. -/
def wordsToBytes (ws : List Nat) : List Nat :=
  ws.foldr (fun w acc =>
    (w >>> 24) % 256 :: (w >>> 16) % 256 :: (w >>> 8) % 256 :: w % 256 :: acc) []

/-- SHA-256 digest (32 bytes) of a byte list. -/
def sha256Bytes (msg : List Nat) : List Nat :=
  let padded := sha256Pad msg
  let st := sha256Blocks sha256Init (padded.length / 64) padded
  wordsToBytes [st.a, st.b, st.c, st.d, st.e, st.f, st.g, st.h]

/-- HMAC-SHA256 (crypto/hmac with a sha256 hash) of a message under a
key: block size 64, inner pad 0x36, outer pad 0x5c. -/
def hmacSha256 (key msg : List Nat) : List Nat :=
  let key1 := if 64 < key.length then sha256Bytes key else key
  let keyPadded := key1 ++ List.replicate (64 - key1.length) 0
  let ipad := keyPadded.map (fun b => b ^^^ 0x36)
  let opad := keyPadded.map (fun b => b ^^^ 0x5c)
  sha256Bytes (opad ++ sha256Bytes (ipad ++ msg))

/-- The standard base64 alphabet. -/
def base64Chars : List Char :=
  "ABCDEFGHIJKLMNOPQRSTUVWXYZabcdefghijklmnopqrstuvwxyz0123456789+/".toList

/-- Character of a 6-bit group. -/
def base64CharOf (n : Nat) : Char := base64Chars.getD n 'A'

/-- Base64 encoding (encoding/base64 StdEncoding) of a byte list, with
trailing padding. -/
def base64Encode : List Nat → String
  | [] => ""
  | [b0] =>
    String.mk [base64CharOf (b0 >>> 2), base64CharOf ((b0 % 4) <<< 4), '=', '=']
  | [b0, b1] =>
    String.mk [base64CharOf (b0 >>> 2), base64CharOf (((b0 % 4) <<< 4) + (b1 >>> 4)),
               base64CharOf ((b1 % 16) <<< 2), '=']
  | b0 :: b1 :: b2 :: rest =>
    String.mk [base64CharOf (b0 >>> 2), base64CharOf (((b0 % 4) <<< 4) + (b1 >>> 4)),
               base64CharOf (((b1 % 16) <<< 2) + (b2 >>> 6)), base64CharOf (b2 % 64)] ++
    base64Encode rest

/-- Value of one base64 character; none when the character is not in the
alphabet (padding included). -/
def base64DecodeChar (c : Char) : Option Nat :=
  let idx := base64Chars.indexOf c
  if idx < 64 then some idx else none

/-- Decode base64 quantums: four characters yield three bytes; a final
quantum may carry one or two padding characters; anything else is a
decode error, as in encoding/base64 StdEncoding. -/
def base64DecodeGroups : List Char → Option (List Nat)
  | [] => some []
  | c0 :: c1 :: c2 :: c3 :: rest => do
    let n0 ← base64DecodeChar c0
    let n1 ← base64DecodeChar c1
    if c2 = '=' then
      if c3 = '=' ∧ rest = [] then
        some [((n0 <<< 2) + (n1 >>> 4)) % 256]
      else none
    else do
      let n2 ← base64DecodeChar c2
      if c3 = '=' then
        if rest = [] then
          some [((n0 <<< 2) + (n1 >>> 4)) % 256, (((n1 % 16) <<< 4) + (n2 >>> 2)) % 256]
        else none
      else do
        let n3 ← base64DecodeChar c3
        let decoded ← base64DecodeGroups rest
        some (((n0 <<< 2) + (n1 >>> 4)) % 256 :: (((n1 % 16) <<< 4) + (n2 >>> 2)) % 256 ::
              (((n2 % 4) <<< 6) + n3) % 256 :: decoded)
  | _ => none

/-- Base64 decoding (encoding/base64 StdEncoding.DecodeString, which
skips newline characters and fails on any other character outside the
alphabet, misplaced padding, or a length not a multiple of four). -/
def base64Decode (s : String) : Option (List Nat) :=
  base64DecodeGroups (s.toList.filter (fun c => (c != '\n') && (c != '\r')))

/-- UTF-8 bytes of a string, as Go obtains with a byte-slice conversion. -/
def strToBytes (s : String) : List Nat :=
  s.toUTF8.toList.map (fun b => b.toNat)

/-! ## Authenticator -/

/-- Client.generateHMACSignature: build the string to sign as
METHOD, newline, URI, newline, HOST;DATE;BODY, base64-decode the access
key, and return the base64 HMAC-SHA256 of the string under the decoded
key.  When the access key does not decode, the function returns the
empty string (it has no error result). -/
def generateHMACSignature (accessKey method uri host dateHeader body : String) : String :=
  let stringToSign := method ++ "\n" ++ uri ++ "\n" ++ host ++ ";" ++ dateHeader ++ ";" ++ body
  match base64Decode accessKey with
  | none => ""
  | some decodedKey => base64Encode (hmacSha256 decodedKey (strToBytes stringToSign))

/-- Headers set by the keyed-signature branch of Client.addAuthentication. -/
structure AuthHeaders where
  date : String
  authorization : String
  contentSha256 : String
  deriving DecidableEq, Repr

/-- The AuthMethodHMAC and AuthMethodConnectionString branch of
Client.addAuthentication: set the Date header, set Authorization from
generateHMACSignature over the request method, path-plus-query, host,
date and body, and set x-ms-content-sha256 to the base64 SHA-256 of the
body.  The branch always succeeds (the only error paths of
addAuthentication are URL re-parsing and an unknown auth method). -/
def addAuthenticationHMAC (accessKey method pathAndQuery host dateHeader body : String) :
    AuthHeaders :=
  { date := dateHeader
    authorization := "HMAC-SHA256 SignedHeaders=date;host;x-ms-content-sha256&Signature=" ++
      generateHMACSignature accessKey method pathAndQuery host dateHeader body
    contentSha256 := base64Encode (sha256Bytes (strToBytes body)) }

/-! ## Connection-string parsing -/

/-- Result of parseConnectionString (the Go ParsedConnectionString). -/
structure ParsedConnectionString where
  endpoint : String
  accessKey : String
  deriving DecidableEq, Repr

/-- The strings.Split of Go for a one-character separator, on character
lists: consecutive separators yield empty parts and the empty input
yields one empty part. -/
def stringsSplitChar (sep : Char) : List Char → List (List Char)
  | [] => [[]]
  | c :: rest =>
    let groups := stringsSplitChar sep rest
    if c = sep then [] :: groups
    else
      match groups with
      | [] => [[c]]
      | g :: gs => (c :: g) :: gs

/-- Body of the parseConnectionString loop: a part with the endpoint=
prefix overwrites the endpoint with the rest of the part (TrimPrefix),
otherwise a part with the accesskey= prefix overwrites the access key;
any other part is ignored. -/
def parseConnPart (parsed : ParsedConnectionString) (part : List Char) :
    ParsedConnectionString :=
  if "endpoint=".toList.isPrefixOf part then
    { parsed with endpoint := String.mk (part.drop "endpoint=".length) }
  else if "accesskey=".toList.isPrefixOf part then
    { parsed with accessKey := String.mk (part.drop "accesskey=".length) }
  else parsed

/-- parseConnectionString: split on semicolons, fold the parts, and fail
when the endpoint or the access key ends up empty. -/
def parseConnectionString (connectionString : String) :
    Except String ParsedConnectionString :=
  let parts := stringsSplitChar ';' connectionString.toList
  let parsed := parts.foldl parseConnPart { endpoint := "", accessKey := "" }
  if parsed.endpoint = "" then .error "endpoint not found in connection string"
  else if parsed.accessKey = "" then .error "access key not found in connection string"
  else .ok parsed

/-- Value carried by the last part with the given prefix, starting from
a default: every part with the prefix overwrites the value with the rest
of that part. -/
def lastPrefixValueAux (pre : String) (acc : String) : List (List Char) → String
  | [] => acc
  | part :: rest =>
    if pre.toList.isPrefixOf part then
      lastPrefixValueAux pre (String.mk (part.drop pre.length)) rest
    else lastPrefixValueAux pre acc rest

/-- Value carried by the last part with the given prefix, empty when no
part has the prefix (the value the parseConnectionString fold retains). -/
def lastPrefixValue (parts : List (List Char)) (pre : String) : String :=
  lastPrefixValueAux pre "" parts

/-! ## Message model and builder -/

/-- EmailAddress from the wire model (address plus optional display
name; the empty display name stands for an absent one). -/
structure EmailAddress where
  address : String
  displayName : String
  deriving DecidableEq, Repr

/-- EmailContent from the wire model. -/
structure EmailContent where
  subject : String
  plainText : String
  html : String
  deriving DecidableEq, Repr

/-- EmailRecipients from the wire model. -/
structure EmailRecipients where
  toRecipients : List EmailAddress
  cc : List EmailAddress
  bcc : List EmailAddress
  deriving DecidableEq, Repr

/-- The EmailMessage payload (EmailRequest in the wire model): sender,
content, recipients and optional reply-to list. -/
structure EmailMessage where
  senderAddress : String
  content : EmailContent
  recipients : EmailRecipients
  replyTo : List EmailAddress
  deriving DecidableEq, Repr

/-- Modelled from the spec: the accumulated state of the fluent
MessageBuilder (the builder source file is not under src/); fields are
the sender, recipient lists in insertion order, reply-to list, subject
and the two bodies, each empty until set. -/
structure MessageBuilder where
  senderAddress : String
  toRecipients : List EmailAddress
  cc : List EmailAddress
  bcc : List EmailAddress
  replyTo : List EmailAddress
  subject : String
  plainText : String
  html : String
  deriving DecidableEq, Repr

/-- Modelled from the spec: the validation messages collected by build()
in its stated order, one entry per violated invariant: sender present,
at least one recipient across to, cc and bcc, subject non-empty, and at
least one non-empty body. -/
def buildValidationErrors (b : MessageBuilder) : List String :=
  (if b.senderAddress = "" then ["sender address is required"] else []) ++
  (if b.toRecipients.isEmpty && b.cc.isEmpty && b.bcc.isEmpty
   then ["at least one recipient is required"] else []) ++
  (if b.subject = "" then ["subject is required"] else []) ++
  (if b.plainText = "" && b.html = ""
   then ["email content (plain text or HTML) is required"] else [])

/-- Modelled from the spec: build() returns the assembled message when no
invariant is violated and otherwise a single aggregate error listing
every violation. -/
def build (b : MessageBuilder) : Except (List String) EmailMessage :=
  let errs := buildValidationErrors b
  if errs.isEmpty then
    .ok { senderAddress := b.senderAddress
          content := { subject := b.subject, plainText := b.plainText, html := b.html }
          recipients := { toRecipients := b.toRecipients, cc := b.cc, bcc := b.bcc }
          replyTo := b.replyTo }
  else .error errs

/-! ## Concrete poll environments used in witnesses and counterexamples -/

/-- Poll environment of the spec's first poller scenario: Queued, then
Sending, then Delivered on successive fetches. -/
def exPollEvents : Nat → FetchOutcome := fun i =>
  if i = 0 then .fetched ⟨"msg-1", "Queued", 0⟩
  else if i = 1 then .fetched ⟨"msg-1", "Sending", 1⟩
  else .fetched ⟨"msg-1", "Delivered", 2⟩

/-- Poll environment with one successful Sending observation followed by
failing fetches. -/
def exPollEventsErr : Nat → FetchOutcome := fun i =>
  if i = 0 then .fetched ⟨"msg-1", "Sending", 0⟩
  else .fetchErr "connection refused"

/-! ## Lemmas about the retry loop -/

theorem sendAux_first_ok (outcomes outcomes2 : Nat → Except SendError SendResponse)
    (now : Nat) :
    ∀ (remaining attempt k : Nat) (resp : SendResponse),
      attempt ≤ k → k ≤ attempt + remaining →
      (∀ j, attempt ≤ j → j < k → ∃ e, outcomes j = .error e) →
      outcomes k = .ok resp →
      (∀ j, attempt ≤ j → j ≤ k → outcomes2 j = outcomes j) →
      sendAux outcomes2 now attempt remaining = .ok (stampResponse resp now) := by
  intro remaining
  induction remaining with
  | zero =>
    intro attempt k resp hak hka _ hok hagree
    have hk : k = attempt := by omega
    subst hk
    have h2 : outcomes2 k = Except.ok resp := (hagree k (Nat.le_refl k) (Nat.le_refl k)).trans hok
    simp [sendAux, h2]
  | succ rem ih =>
    intro attempt k resp hak hka herr hok hagree
    by_cases hk : k = attempt
    · subst hk
      have h2 : outcomes2 k = Except.ok resp := (hagree k (Nat.le_refl k) (Nat.le_refl k)).trans hok
      simp [sendAux, h2]
    · obtain ⟨e, he⟩ := herr attempt (Nat.le_refl attempt) (by omega)
      have h2 : outcomes2 attempt = Except.error e :=
        (hagree attempt (Nat.le_refl attempt) (by omega)).trans he
      simp only [sendAux, h2]
      exact ih (attempt + 1) k resp (by omega) (by omega)
        (fun j h1 h2 => herr j (by omega) h2) hok
        (fun j h1 h2 => hagree j (by omega) h2)

theorem sendAux_all_error (outcomes : Nat → Except SendError SendResponse) (now : Nat) :
    ∀ (remaining attempt : Nat) (e : SendError),
      (∀ j, attempt ≤ j → j < attempt + remaining → ∃ e0, outcomes j = .error e0) →
      outcomes (attempt + remaining) = .error e →
      sendAux outcomes now attempt remaining = .failedAfter (attempt + remaining + 1) e := by
  intro remaining
  induction remaining with
  | zero =>
    intro attempt e _ he
    rw [Nat.add_zero] at he ⊢
    simp [sendAux, he]
  | succ rem ih =>
    intro attempt e hall he
    obtain ⟨e0, he0⟩ := hall attempt (Nat.le_refl attempt) (by omega)
    simp only [sendAux, he0]
    have := ih (attempt + 1) e (fun j h1 h2 => hall j (by omega) (by omega))
      (by rw [show attempt + 1 + rem = attempt + (rem + 1) from by omega]; exact he)
    rw [this]
    congr 1
    omega

theorem sendAux_congr (o1 o2 : Nat → Except SendError SendResponse) (now : Nat) :
    ∀ (remaining attempt : Nat),
      (∀ j, attempt ≤ j → j ≤ attempt + remaining → o1 j = o2 j) →
      sendAux o1 now attempt remaining = sendAux o2 now attempt remaining := by
  intro remaining
  induction remaining with
  | zero =>
    intro attempt hagree
    have h := hagree attempt (Nat.le_refl attempt) (by omega)
    simp only [sendAux, h]
  | succ rem ih =>
    intro attempt hagree
    have h := hagree attempt (Nat.le_refl attempt) (by omega)
    simp only [sendAux, h]
    cases o2 attempt with
    | ok resp => rfl
    | error e => exact ih (attempt + 1) (fun j h1 h2 => hagree j (by omega) (by omega))

theorem sendAux_error_swap (o1 o2 : Nat → Except SendError SendResponse) (now : Nat) :
    ∀ (remaining attempt i : Nat),
      i ≠ attempt + remaining →
      (∀ j, j ≠ i → o1 j = o2 j) →
      (∃ e, o1 i = .error e) → (∃ e, o2 i = .error e) →
      sendAux o1 now attempt remaining = sendAux o2 now attempt remaining := by
  intro remaining
  induction remaining with
  | zero =>
    intro attempt i hi hagree _ _
    have h : o1 attempt = o2 attempt := hagree attempt (by omega)
    simp only [sendAux, h]
  | succ rem ih =>
    intro attempt i hi hagree h1 h2
    by_cases hia : attempt = i
    · subst hia
      obtain ⟨e1, he1⟩ := h1
      obtain ⟨e2, he2⟩ := h2
      simp only [sendAux, he1, he2]
      exact ih (attempt + 1) attempt (by omega) hagree ⟨e1, he1⟩ ⟨e2, he2⟩
    · have h : o1 attempt = o2 attempt := hagree attempt hia
      simp only [sendAux, h]
      cases o2 attempt with
      | ok resp => rfl
      | error e => exact ih (attempt + 1) i (by omega) hagree h1 h2

theorem sendAux_ok_stamped (outcomes : Nat → Except SendError SendResponse) (now : Nat) :
    ∀ (remaining attempt : Nat) (resp : SendResponse),
      sendAux outcomes now attempt remaining = .ok resp →
      resp.messageID = resp.id ∧ resp.timestamp = now := by
  intro remaining
  induction remaining with
  | zero =>
    intro attempt resp h
    revert h
    simp only [sendAux]
    cases outcomes attempt with
    | ok r => intro h; cases h; simp [stampResponse]
    | error e => intro h; cases h
  | succ rem ih =>
    intro attempt resp h
    revert h
    simp only [sendAux]
    cases outcomes attempt with
    | ok r => intro h; cases h; simp [stampResponse]
    | error e => exact ih (attempt + 1) resp

/-! ## Claims about the request engine -/

/-- Claim C1: for every message and per-attempt outcome environment,
sendWithContext performs at most maxRetries + 1 total attempts (its
result depends only on the outcomes of attempts 0 to maxRetries); when
attempt i, i at most maxRetries, is the first to succeed, the result is
that attempt's parsed response with the receipt timestamp stamped,
whatever the outcomes of any later attempt; and when all maxRetries + 1
attempts fail, the result is the aggregate failure stating the total
attempt count maxRetries + 1 and wrapping the last attempt's error. -/
theorem sendWithContext_retry_spec (maxRetries now : Nat)
    (outcomes : Nat → Except SendError SendResponse) :
    (∀ (outcomes2 : Nat → Except SendError SendResponse),
        (∀ j, j ≤ maxRetries → outcomes2 j = outcomes j) →
        sendWithContext maxRetries now outcomes2 = sendWithContext maxRetries now outcomes)
  ∧ (∀ (i : Nat) (resp : SendResponse), i ≤ maxRetries →
        (∀ j, j < i → ∃ e, outcomes j = .error e) →
        outcomes i = .ok resp →
        ∀ (outcomes2 : Nat → Except SendError SendResponse),
          (∀ j, j ≤ i → outcomes2 j = outcomes j) →
          sendWithContext maxRetries now outcomes2 = .ok (stampResponse resp now))
  ∧ (∀ (e : SendError),
        (∀ j, j ≤ maxRetries → ∃ e0, outcomes j = .error e0) →
        outcomes maxRetries = .error e →
        sendWithContext maxRetries now outcomes = .failedAfter (maxRetries + 1) e) := by
  refine ⟨?_, ?_, ?_⟩
  · intro o2 hagree
    exact sendAux_congr o2 outcomes now maxRetries 0 (fun j _ h2 => hagree j (by omega))
  · intro i resp hi herr hok o2 hagree
    exact sendAux_first_ok outcomes o2 now maxRetries 0 i resp (by omega) (by omega)
      (fun j _ h2 => herr j h2) hok (fun j _ h2 => hagree j h2)
  · intro e hall he
    have h := sendAux_all_error outcomes now maxRetries 0 e
      (fun j _ h2 => hall j (by omega)) (by simpa using he)
    simpa [sendWithContext] using h

theorem sendWithContext_retry_spec_witness :
    sendWithContext 1 5 (fun j => if j = 0
        then Except.error (SendError.httpRequestFailed "refused")
        else Except.ok ⟨"msg-1", "", "Queued", 0⟩) =
      SendFinal.ok (stampResponse ⟨"msg-1", "", "Queued", 0⟩ 5) :=
  (sendWithContext_retry_spec 1 5 _).2.1 1 ⟨"msg-1", "", "Queued", 0⟩ (by omega)
    (fun j hj => ⟨SendError.httpRequestFailed "refused",
      by have hj0 : j = 0 := by omega
         subst hj0; rfl⟩)
    rfl _ (fun j _ => rfl)

/-- Claim C5: an attempt whose HTTP response carries a non-2xx status
code fails exactly like a transport-level failure: sendSingleAttempt
returns an error for every status code outside [200, 300) with no 4xx or
5xx distinction, the retry loop's result is unchanged when the error of
any attempt other than the last is replaced by a different error, and
when every attempt fails the loop records the last attempt's error in
the aggregate failure and proceeds through all attempts. -/
theorem send_non2xx_retried_like_transport
    (parseResponse : String → Option SendResponse)
    (parseApiError : String → Option ApiErrorBody) :
    (∀ (statusCode : Nat) (respBody : String),
        statusCode < 200 ∨ 300 ≤ statusCode →
        ∃ e, sendSingleAttempt parseResponse parseApiError
          (.response statusCode respBody) = .error e)
  ∧ (∀ (maxRetries now i : Nat) (o1 o2 : Nat → Except SendError SendResponse),
        i ≠ maxRetries →
        (∀ j, j ≠ i → o1 j = o2 j) →
        (∃ e, o1 i = .error e) → (∃ e, o2 i = .error e) →
        sendWithContext maxRetries now o1 = sendWithContext maxRetries now o2)
  ∧ (∀ (maxRetries now : Nat) (outcomes : Nat → Except SendError SendResponse)
        (e : SendError),
        (∀ j, j ≤ maxRetries → ∃ e0, outcomes j = .error e0) →
        outcomes maxRetries = .error e →
        sendWithContext maxRetries now outcomes = .failedAfter (maxRetries + 1) e) := by
  refine ⟨?_, ?_, ?_⟩
  · intro statusCode respBody h
    simp only [sendSingleAttempt, if_pos h]
    cases parseApiError respBody with
    | none => exact ⟨_, rfl⟩
    | some apiError => exact ⟨_, rfl⟩
  · intro maxRetries now i o1 o2 hi hagree h1 h2
    exact sendAux_error_swap o1 o2 now maxRetries 0 i (by omega) hagree h1 h2
  · intro maxRetries now outcomes e hall he
    have h := sendAux_all_error outcomes now maxRetries 0 e
      (fun j _ h2 => hall j (by omega)) (by simpa using he)
    simpa [sendWithContext] using h

theorem send_non2xx_retried_like_transport_witness :
    (∃ e, sendSingleAttempt (fun _ => none) (fun _ => none)
        (HTTPResult.response 400 "bad request") = .error e)
  ∧ sendWithContext 1 5
      (fun j => if j = 0 then Except.error (SendError.apiErrorRaw 400 "bad request")
                else Except.ok ⟨"msg-1", "", "Queued", 0⟩) =
    sendWithContext 1 5
      (fun j => if j = 0 then Except.error (SendError.httpRequestFailed "refused")
                else Except.ok ⟨"msg-1", "", "Queued", 0⟩) :=
  ⟨(send_non2xx_retried_like_transport (fun _ => none) (fun _ => none)).1 400
      "bad request" (by omega),
   (send_non2xx_retried_like_transport (fun _ => none) (fun _ => none)).2.1 1 5 0 _ _
      (by omega) (fun j hj => by simp [hj])
      ⟨SendError.apiErrorRaw 400 "bad request", rfl⟩
      ⟨SendError.httpRequestFailed "refused", rfl⟩⟩

/-- Claim C10: every successful Send or SendWithContext result satisfies
MessageID = ID: the legacy MessageID field is set from the parsed ID
field before the response reaches the caller. -/
theorem sendWithContext_messageID_eq_id (maxRetries now : Nat)
    (outcomes : Nat → Except SendError SendResponse) (resp : SendResponse)
    (h : sendWithContext maxRetries now outcomes = .ok resp) :
    resp.messageID = resp.id :=
  (sendAux_ok_stamped outcomes now maxRetries 0 resp h).1

theorem sendWithContext_messageID_eq_id_witness :
    sendWithContext 0 3 (fun _ => Except.ok ⟨"msg-7", "stale", "Queued", 0⟩) =
      SendFinal.ok ⟨"msg-7", "msg-7", "Queued", 3⟩ ∧
    (⟨"msg-7", "msg-7", "Queued", 3⟩ : SendResponse).messageID =
      (⟨"msg-7", "msg-7", "Queued", 3⟩ : SendResponse).id :=
  ⟨by decide, sendWithContext_messageID_eq_id 0 3
    (fun _ => Except.ok ⟨"msg-7", "stale", "Queued", 0⟩)
    ⟨"msg-7", "msg-7", "Queued", 3⟩ (by decide)⟩

/-! ## Lemmas about the polling loop -/

theorem waitAux_terminal (events : Nat → FetchOutcome) (ctxDone : Nat → Bool)
    (i fuel : Nat) (s : StatusResponse)
    (hev : events i = .fetched s) (hfin : isFinalStatus s.status = true) :
    waitAux events ctxDone i (fuel + 1) =
      ([CallbackEvent.statusCb s], some (WaitResult.completed s)) := by
  simp [waitAux, hev, hfin]

theorem waitAux_nonterminal_step (events : Nat → FetchOutcome) (ctxDone : Nat → Bool)
    (i fuel : Nat) (s : StatusResponse)
    (hev : events i = .fetched s) (hfin : isFinalStatus s.status = false)
    (hdone : ctxDone i = false) :
    waitAux events ctxDone i (fuel + 1) =
      (CallbackEvent.statusCb s :: (waitAux events ctxDone (i + 1) fuel).1,
       (waitAux events ctxDone (i + 1) fuel).2) := by
  simp [waitAux, hev, hfin, hdone]

theorem waitAux_fetchErr_step (events : Nat → FetchOutcome) (ctxDone : Nat → Bool)
    (i fuel : Nat) (e : String)
    (hev : events i = .fetchErr e) (hdone : ctxDone i = false) :
    waitAux events ctxDone i (fuel + 1) =
      (CallbackEvent.errCb e :: (waitAux events ctxDone (i + 1) fuel).1,
       (waitAux events ctxDone (i + 1) fuel).2) := by
  simp [waitAux, hev, hdone]

theorem waitAux_fetchErr_timeout (events : Nat → FetchOutcome) (ctxDone : Nat → Bool)
    (i fuel : Nat) (e : String)
    (hev : events i = .fetchErr e) (hdone : ctxDone i = true) :
    waitAux events ctxDone i (fuel + 1) =
      ([CallbackEvent.errCb e], some WaitResult.timedOutNone) := by
  simp [waitAux, hev, hdone]

theorem waitAux_nonterminal_timeout (events : Nat → FetchOutcome) (ctxDone : Nat → Bool)
    (i fuel : Nat) (s : StatusResponse)
    (hev : events i = .fetched s) (hfin : isFinalStatus s.status = false)
    (hdone : ctxDone i = true) :
    waitAux events ctxDone i (fuel + 1) =
      ([CallbackEvent.statusCb s], some (WaitResult.timedOutLast s)) := by
  simp [waitAux, hev, hfin, hdone]

theorem waitAux_completed_sound (events : Nat → FetchOutcome) (ctxDone : Nat → Bool) :
    ∀ (fuel i : Nat) (s : StatusResponse),
      (waitAux events ctxDone i fuel).2 = some (.completed s) →
      ∃ k, i ≤ k ∧ k < i + fuel ∧ events k = .fetched s ∧ isFinalStatus s.status = true ∧
        ∀ j, i ≤ j → j < k → ∀ s2, events j = .fetched s2 →
          isFinalStatus s2.status = false := by
  intro fuel
  induction fuel with
  | zero => intro i s h; simp [waitAux] at h
  | succ f ih =>
    intro i s h
    cases hev : events i with
    | fetchErr e =>
      cases hdone : ctxDone i with
      | true => rw [waitAux_fetchErr_timeout events ctxDone i f e hev hdone] at h; simp at h
      | false =>
        rw [waitAux_fetchErr_step events ctxDone i f e hev hdone] at h
        obtain ⟨k, hk1, hk2, hk3, hk4, hk5⟩ := ih (i + 1) s h
        refine ⟨k, by omega, by omega, hk3, hk4, fun j hj1 hj2 s2 hev2 => ?_⟩
        by_cases hji : j = i
        · subst hji; rw [hev] at hev2; cases hev2
        · exact hk5 j (by omega) hj2 s2 hev2
    | fetched s0 =>
      cases hfin : isFinalStatus s0.status with
      | true =>
        rw [waitAux_terminal events ctxDone i f s0 hev hfin] at h
        simp at h
        subst h
        exact ⟨i, Nat.le_refl i, by omega, hev, hfin, fun j hj1 hj2 => by omega⟩
      | false =>
        cases hdone : ctxDone i with
        | true =>
          rw [waitAux_nonterminal_timeout events ctxDone i f s0 hev hfin hdone] at h
          simp at h
        | false =>
          rw [waitAux_nonterminal_step events ctxDone i f s0 hev hfin hdone] at h
          obtain ⟨k, hk1, hk2, hk3, hk4, hk5⟩ := ih (i + 1) s h
          refine ⟨k, by omega, by omega, hk3, hk4, fun j hj1 hj2 s2 hev2 => ?_⟩
          by_cases hji : j = i
          · subst hji; rw [hev] at hev2; cases hev2; exact hfin
          · exact hk5 j (by omega) hj2 s2 hev2

theorem waitAux_completed_of_first (events : Nat → FetchOutcome) (ctxDone : Nat → Bool) :
    ∀ (fuel i k : Nat) (s : StatusResponse),
      i ≤ k → k < i + fuel →
      (∀ j, i ≤ j → j < k → nonTerminalStep events ctxDone j) →
      events k = .fetched s → isFinalStatus s.status = true →
      (waitAux events ctxDone i fuel).2 = some (.completed s) := by
  intro fuel
  induction fuel with
  | zero => intro i k s h1 h2; omega
  | succ f ih =>
    intro i k s hik hkf hns hev hfin
    by_cases hki : k = i
    · subst hki
      rw [waitAux_terminal events ctxDone k f s hev hfin]
    · obtain ⟨hdone, hnt⟩ := hns i (Nat.le_refl i) (by omega)
      cases hev0 : events i with
      | fetchErr e =>
        rw [waitAux_fetchErr_step events ctxDone i f e hev0 hdone]
        exact ih (i + 1) k s (by omega) (by omega)
          (fun j hj1 hj2 => hns j (by omega) hj2) hev hfin
      | fetched s0 =>
        rw [waitAux_nonterminal_step events ctxDone i f s0 hev0 (hnt s0 hev0) hdone]
        exact ih (i + 1) k s (by omega) (by omega)
          (fun j hj1 hj2 => hns j (by omega) hj2) hev hfin

theorem waitAux_timeout_of_fetchErr (events : Nat → FetchOutcome) (ctxDone : Nat → Bool) :
    ∀ (fuel i k : Nat) (e : String),
      i ≤ k → k < i + fuel →
      (∀ j, i ≤ j → j < k → nonTerminalStep events ctxDone j) →
      events k = .fetchErr e → ctxDone k = true →
      (waitAux events ctxDone i fuel).2 = some WaitResult.timedOutNone := by
  intro fuel
  induction fuel with
  | zero => intro i k e h1 h2; omega
  | succ f ih =>
    intro i k e hik hkf hns hev hdone
    by_cases hki : k = i
    · subst hki
      rw [waitAux_fetchErr_timeout events ctxDone k f e hev hdone]
    · obtain ⟨hdone0, hnt⟩ := hns i (Nat.le_refl i) (by omega)
      cases hev0 : events i with
      | fetchErr e0 =>
        rw [waitAux_fetchErr_step events ctxDone i f e0 hev0 hdone0]
        exact ih (i + 1) k e (by omega) (by omega)
          (fun j hj1 hj2 => hns j (by omega) hj2) hev hdone
      | fetched s0 =>
        rw [waitAux_nonterminal_step events ctxDone i f s0 hev0 (hnt s0 hev0) hdone0]
        exact ih (i + 1) k e (by omega) (by omega)
          (fun j hj1 hj2 => hns j (by omega) hj2) hev hdone

theorem waitAux_timeout_of_nonterminal (events : Nat → FetchOutcome) (ctxDone : Nat → Bool) :
    ∀ (fuel i k : Nat) (s : StatusResponse),
      i ≤ k → k < i + fuel →
      (∀ j, i ≤ j → j < k → nonTerminalStep events ctxDone j) →
      events k = .fetched s → isFinalStatus s.status = false → ctxDone k = true →
      (waitAux events ctxDone i fuel).2 = some (WaitResult.timedOutLast s) := by
  intro fuel
  induction fuel with
  | zero => intro i k s h1 h2; omega
  | succ f ih =>
    intro i k s hik hkf hns hev hfin hdone
    by_cases hki : k = i
    · subst hki
      rw [waitAux_nonterminal_timeout events ctxDone k f s hev hfin hdone]
    · obtain ⟨hdone0, hnt⟩ := hns i (Nat.le_refl i) (by omega)
      cases hev0 : events i with
      | fetchErr e0 =>
        rw [waitAux_fetchErr_step events ctxDone i f e0 hev0 hdone0]
        exact ih (i + 1) k s (by omega) (by omega)
          (fun j hj1 hj2 => hns j (by omega) hj2) hev hfin hdone
      | fetched s0 =>
        rw [waitAux_nonterminal_step events ctxDone i f s0 hev0 (hnt s0 hev0) hdone0]
        exact ih (i + 1) k s (by omega) (by omega)
          (fun j hj1 hj2 => hns j (by omega) hj2) hev hfin hdone

theorem waitAux_no_ctxDone (events : Nat → FetchOutcome) (ctxDone : Nat → Bool)
    (hctx : ∀ j, ctxDone j = false) :
    ∀ (fuel i : Nat) (r : WaitResult),
      (waitAux events ctxDone i fuel).2 = some r →
      ∃ s, r = .completed s ∧ isFinalStatus s.status = true := by
  intro fuel
  induction fuel with
  | zero => intro i r h; simp [waitAux] at h
  | succ f ih =>
    intro i r h
    cases hev : events i with
    | fetchErr e =>
      rw [waitAux_fetchErr_step events ctxDone i f e hev (hctx i)] at h
      exact ih (i + 1) r h
    | fetched s0 =>
      cases hfin : isFinalStatus s0.status with
      | true =>
        rw [waitAux_terminal events ctxDone i f s0 hev hfin] at h
        simp at h
        subst h
        exact ⟨s0, rfl, hfin⟩
      | false =>
        rw [waitAux_nonterminal_step events ctxDone i f s0 hev hfin (hctx i)] at h
        exact ih (i + 1) r h

/-! ## Claims about the status poller -/

/-- Claim C2: isFinalStatus accepts exactly the terminal set Delivered,
Failed, Canceled; a fetched terminal status makes waitForCompletion
return that StatusResult at once with no dependence on the deadline or
on any later iteration; when the first terminal fetch happens at
iteration k after only non-ending iterations, the run returns that
result for every environment agreeing up to k (so no further status is
fetched); a successful return always stems from such a first terminal
fetch; and a fetched non-terminal status never by itself ends the call:
with the context not done the loop proceeds to the next iteration. -/
theorem waitForCompletion_first_terminal (events : Nat → FetchOutcome)
    (ctxDone : Nat → Bool) :
    (∀ st : String, isFinalStatus st = true ↔
        st = "Delivered" ∨ st = "Failed" ∨ st = "Canceled")
  ∧ (∀ (i fuel : Nat) (s : StatusResponse), events i = .fetched s →
        isFinalStatus s.status = true →
        waitAux events ctxDone i (fuel + 1) =
          ([CallbackEvent.statusCb s], some (WaitResult.completed s)))
  ∧ (∀ (fuel k : Nat) (s : StatusResponse), k < fuel →
        (∀ j, j < k → nonTerminalStep events ctxDone j) →
        events k = .fetched s → isFinalStatus s.status = true →
        ∀ events2 : Nat → FetchOutcome, (∀ j, j ≤ k → events2 j = events j) →
          (waitForCompletion events2 ctxDone fuel).2 = some (.completed s))
  ∧ (∀ (fuel : Nat) (s : StatusResponse),
        (waitForCompletion events ctxDone fuel).2 = some (.completed s) →
        ∃ k, k < fuel ∧ events k = .fetched s ∧ isFinalStatus s.status = true ∧
          ∀ j, j < k → ∀ s2, events j = .fetched s2 → isFinalStatus s2.status = false)
  ∧ (∀ (i fuel : Nat) (s : StatusResponse), events i = .fetched s →
        isFinalStatus s.status = false → ctxDone i = false →
        waitAux events ctxDone i (fuel + 1) =
          (CallbackEvent.statusCb s :: (waitAux events ctxDone (i + 1) fuel).1,
           (waitAux events ctxDone (i + 1) fuel).2)) := by
  refine ⟨?_, ?_, ?_, ?_, ?_⟩
  · intro st
    simp only [isFinalStatus, StatusDelivered, StatusFailed, StatusCanceled,
      List.any_cons, List.any_nil, Bool.or_eq_true, beq_iff_eq, Bool.false_eq_true,
      or_false]
  · exact fun i fuel s hev hfin => waitAux_terminal events ctxDone i fuel s hev hfin
  · intro fuel k s hkf hns hev hfin events2 hagree
    refine waitAux_completed_of_first events2 ctxDone fuel 0 k s (by omega) (by omega)
      (fun j _ hj2 => ?_) ((hagree k (Nat.le_refl k)).trans hev) hfin
    obtain ⟨hdone, hnt⟩ := hns j hj2
    refine ⟨hdone, fun s2 hev2 => hnt s2 ?_⟩
    rw [← hagree j (by omega)]
    exact hev2
  · intro fuel s h
    obtain ⟨k, hk1, hk2, hk3, hk4, hk5⟩ := waitAux_completed_sound events ctxDone fuel 0 s h
    exact ⟨k, by omega, hk3, hk4, fun j hj s2 hev2 => hk5 j (by omega) hj s2 hev2⟩
  · exact fun i fuel s hev hfin hdone =>
      waitAux_nonterminal_step events ctxDone i fuel s hev hfin hdone

theorem waitForCompletion_first_terminal_witness :
    (waitForCompletion exPollEvents (fun _ => false) 5).2 =
      some (WaitResult.completed ⟨"msg-1", "Delivered", 2⟩) :=
  (waitForCompletion_first_terminal exPollEvents (fun _ => false)).2.2.1 5 2
    ⟨"msg-1", "Delivered", 2⟩ (by omega)
    (fun j hj => by
      refine ⟨rfl, fun s2 hev => ?_⟩
      have hj01 : j = 0 ∨ j = 1 := by omega
      rcases hj01 with h | h <;> subst h <;> simp [exPollEvents] at hev <;>
        subst hev <;> rfl)
    rfl rfl exPollEvents (fun j _ => rfl)

/-- Claim C6 fails as stated: in a run whose first iteration observes the
non-terminal Sending status and whose second iteration's fetch fails
with the deadline elapsed, waitForCompletion returns the timeout error
with no StatusResult at all (the fetch-error branch returns a nil
status), not the last successfully observed Sending result. -/
theorem waitForCompletion_timeout_counterexample :
    (waitForCompletion exPollEventsErr (fun i => decide (0 < i)) 2).2 =
      some WaitResult.timedOutNone ∧
    some WaitResult.timedOutNone ≠
      some (WaitResult.timedOutLast ⟨"msg-1", "Sending", 0⟩) := by decide

/-- Claim C6 (amended): when the context deadline wins at the wait point
after a successful non-terminal fetch, waitForCompletion returns the
timeout error together with that iteration's StatusResult, which is the
last successfully observed one; but when the deadline wins at the wait
point after a failed fetch, waitForCompletion returns the timeout error
with no StatusResult, even when an earlier iteration observed one
successfully. -/
theorem waitForCompletion_timeout_spec (events : Nat → FetchOutcome)
    (ctxDone : Nat → Bool) :
    (∀ (fuel k : Nat) (s : StatusResponse), k < fuel →
        (∀ j, j < k → nonTerminalStep events ctxDone j) →
        events k = .fetched s → isFinalStatus s.status = false → ctxDone k = true →
        (waitForCompletion events ctxDone fuel).2 = some (.timedOutLast s))
  ∧ (∀ (fuel k : Nat) (e : String), k < fuel →
        (∀ j, j < k → nonTerminalStep events ctxDone j) →
        events k = .fetchErr e → ctxDone k = true →
        (waitForCompletion events ctxDone fuel).2 = some WaitResult.timedOutNone) := by
  constructor
  · intro fuel k s hkf hns hev hfin hdone
    exact waitAux_timeout_of_nonterminal events ctxDone fuel 0 k s (by omega) (by omega)
      (fun j _ hj2 => hns j hj2) hev hfin hdone
  · intro fuel k e hkf hns hev hdone
    exact waitAux_timeout_of_fetchErr events ctxDone fuel 0 k e (by omega) (by omega)
      (fun j _ hj2 => hns j hj2) hev hdone

theorem waitForCompletion_timeout_spec_witness :
    (waitForCompletion exPollEventsErr (fun i => decide (0 < i)) 3).2 =
      some WaitResult.timedOutNone :=
  (waitForCompletion_timeout_spec exPollEventsErr (fun i => decide (0 < i))).2 3 1
    "connection refused" (by omega)
    (fun j hj => by
      have hj0 : j = 0 := by omega
      subst hj0
      refine ⟨rfl, fun s2 hev => ?_⟩
      simp [exPollEventsErr] at hev
      subst hev
      rfl)
    rfl rfl

/-- Claim C8: a failed status fetch during polling invokes the OnError
callback with the error and, when the context is not done, the loop
continues with the next iteration exactly as if started there; a
status-check failure never by itself terminates the loop: a run in which
the context never fires can only return a terminal StatusResult. -/
theorem waitForCompletion_onError_continues (events : Nat → FetchOutcome)
    (ctxDone : Nat → Bool) :
    (∀ (i fuel : Nat) (e : String), events i = .fetchErr e → ctxDone i = false →
        waitAux events ctxDone i (fuel + 1) =
          (CallbackEvent.errCb e :: (waitAux events ctxDone (i + 1) fuel).1,
           (waitAux events ctxDone (i + 1) fuel).2))
  ∧ (∀ (fuel : Nat) (r : WaitResult), (∀ j, ctxDone j = false) →
        (waitForCompletion events ctxDone fuel).2 = some r →
        ∃ s, r = .completed s ∧ isFinalStatus s.status = true) := by
  constructor
  · exact fun i fuel e hev hdone => waitAux_fetchErr_step events ctxDone i fuel e hev hdone
  · intro fuel r hctx h
    exact waitAux_no_ctxDone events ctxDone hctx fuel 0 r h

theorem waitForCompletion_onError_continues_witness :
    waitAux exPollEventsErr (fun _ => false) 1 2 =
      (CallbackEvent.errCb "connection refused" ::
        (waitAux exPollEventsErr (fun _ => false) 2 1).1,
       (waitAux exPollEventsErr (fun _ => false) 2 1).2) :=
  (waitForCompletion_onError_continues exPollEventsErr (fun _ => false)).1 1 1
    "connection refused" rfl rfl

/-! ## Claims about the authenticator -/

/-- Claim C3: in keyed-signature mode, for every method, path-plus-query,
host, date string, body and base64-decodable stored key, the
Authorization header is the fixed HMAC-SHA256 SignedHeaders prefix
followed by the base64 HMAC-SHA256, under the decoded key, of the
canonical string built as method, newline, path-plus-query, newline,
host, ";", date, ";", body; and the x-ms-content-sha256 header is the
base64 SHA-256 of the body. -/
theorem addAuthentication_hmac_spec
    (accessKey method pathAndQuery host dateHeader body : String)
    (key : List Nat) (hkey : base64Decode accessKey = some key) :
    (addAuthenticationHMAC accessKey method pathAndQuery host dateHeader
        body).authorization =
      "HMAC-SHA256 SignedHeaders=date;host;x-ms-content-sha256&Signature=" ++
        base64Encode (hmacSha256 key (strToBytes
          (method ++ "\n" ++ pathAndQuery ++ "\n" ++ host ++ ";" ++ dateHeader ++ ";" ++
            body)))
  ∧ (addAuthenticationHMAC accessKey method pathAndQuery host dateHeader
        body).contentSha256 =
      base64Encode (sha256Bytes (strToBytes body)) := by
  constructor
  · simp only [addAuthenticationHMAC, generateHMACSignature, hkey]
  · rfl

theorem addAuthentication_hmac_spec_witness :
    base64Decode "QUJD" = some [65, 66, 67] ∧
    ((addAuthenticationHMAC "QUJD" "POST" "/emails:send?api-version=2024-07-01-preview"
        "contoso.communication.azure.com" "Mon, 01 Jan 2024 00:00:00 GMT"
        "body").authorization =
      "HMAC-SHA256 SignedHeaders=date;host;x-ms-content-sha256&Signature=" ++
        base64Encode (hmacSha256 [65, 66, 67] (strToBytes
          ("POST" ++ "\n" ++ "/emails:send?api-version=2024-07-01-preview" ++ "\n" ++
            "contoso.communication.azure.com" ++ ";" ++ "Mon, 01 Jan 2024 00:00:00 GMT" ++
            ";" ++ "body")))
    ∧ (addAuthenticationHMAC "QUJD" "POST" "/emails:send?api-version=2024-07-01-preview"
        "contoso.communication.azure.com" "Mon, 01 Jan 2024 00:00:00 GMT"
        "body").contentSha256 =
      base64Encode (sha256Bytes (strToBytes "body"))) :=
  ⟨by decide,
   addAuthentication_hmac_spec "QUJD" "POST" "/emails:send?api-version=2024-07-01-preview"
     "contoso.communication.azure.com" "Mon, 01 Jan 2024 00:00:00 GMT" "body"
     [65, 66, 67] (by decide)⟩

/-- Claim C4 fails as stated: with the stored key being the
non-base64-decodable string of four exclamation marks, the signing step
reports no error at all; generateHMACSignature returns the empty string
and the keyed-signature branch of addAuthentication still produces the
headers, with an Authorization value whose Signature part is empty. -/
theorem addAuthentication_badKey_counterexample :
    base64Decode "!!!!" = none ∧
    generateHMACSignature "!!!!" "POST" "/emails:send?api-version=2024-07-01-preview"
      "contoso.communication.azure.com" "Mon, 01 Jan 2024 00:00:00 GMT" "body" = "" ∧
    (addAuthenticationHMAC "!!!!" "POST" "/emails:send?api-version=2024-07-01-preview"
      "contoso.communication.azure.com" "Mon, 01 Jan 2024 00:00:00 GMT"
      "body").authorization =
      "HMAC-SHA256 SignedHeaders=date;host;x-ms-content-sha256&Signature=" := by
  refine ⟨by decide, by decide, by decide⟩

/-- Claim C4 (amended): when the stored credential cannot be
base64-decoded, keyed-signature authentication does not fail and still
produces the headers: generateHMACSignature returns the empty string, so
the Authorization header is the fixed prefix with an empty Signature
value, and the content hash header is still computed from the body; no
signing error reaches the caller. -/
theorem addAuthentication_badKey_spec
    (accessKey method pathAndQuery host dateHeader body : String)
    (hkey : base64Decode accessKey = none) :
    generateHMACSignature accessKey method pathAndQuery host dateHeader body = "" ∧
    (addAuthenticationHMAC accessKey method pathAndQuery host dateHeader
        body).authorization =
      "HMAC-SHA256 SignedHeaders=date;host;x-ms-content-sha256&Signature=" ∧
    (addAuthenticationHMAC accessKey method pathAndQuery host dateHeader
        body).contentSha256 =
      base64Encode (sha256Bytes (strToBytes body)) := by
  have hsig : generateHMACSignature accessKey method pathAndQuery host dateHeader body =
      "" := by
    simp only [generateHMACSignature, hkey]
  refine ⟨hsig, ?_, rfl⟩
  show "HMAC-SHA256 SignedHeaders=date;host;x-ms-content-sha256&Signature=" ++
      generateHMACSignature accessKey method pathAndQuery host dateHeader body = _
  rw [hsig, String.append_empty]

theorem addAuthentication_badKey_spec_witness :
    base64Decode "not-base64" = none ∧
    (generateHMACSignature "not-base64" "GET" "/emails/operations/abc?api-version=x"
        "contoso.communication.azure.com" "Mon, 01 Jan 2024 00:00:00 GMT" "" = "" ∧
     (addAuthenticationHMAC "not-base64" "GET" "/emails/operations/abc?api-version=x"
        "contoso.communication.azure.com" "Mon, 01 Jan 2024 00:00:00 GMT"
        "").authorization =
       "HMAC-SHA256 SignedHeaders=date;host;x-ms-content-sha256&Signature=" ∧
     (addAuthenticationHMAC "not-base64" "GET" "/emails/operations/abc?api-version=x"
        "contoso.communication.azure.com" "Mon, 01 Jan 2024 00:00:00 GMT"
        "").contentSha256 =
       base64Encode (sha256Bytes (strToBytes ""))) :=
  ⟨by decide,
   addAuthentication_badKey_spec "not-base64" "GET" "/emails/operations/abc?api-version=x"
     "contoso.communication.azure.com" "Mon, 01 Jan 2024 00:00:00 GMT" "" (by decide)⟩

/-! ## Lemmas about connection-string parsing -/

theorem not_endpoint_and_accesskey (part : List Char) :
    "endpoint=".toList.isPrefixOf part = true →
    "accesskey=".toList.isPrefixOf part = true → False := by
  intro h1 h2
  have he : "endpoint=".toList = 'e' :: "ndpoint=".toList := rfl
  have ha : "accesskey=".toList = 'a' :: "ccesskey=".toList := rfl
  cases part with
  | nil =>
    rw [he] at h1
    simp [List.isPrefixOf] at h1
  | cons c rest =>
    rw [he] at h1
    rw [ha] at h2
    simp only [List.isPrefixOf, Bool.and_eq_true, beq_iff_eq] at h1 h2
    exact absurd (h2.1.trans h1.1.symm) (by decide)

theorem parseConnPart_endpoint_of_pre (acc : ParsedConnectionString) (part : List Char)
    (h : "endpoint=".toList.isPrefixOf part = true) :
    (parseConnPart acc part).endpoint = String.mk (part.drop "endpoint=".length) := by
  simp only [parseConnPart, if_pos h]

theorem parseConnPart_endpoint_of_not (acc : ParsedConnectionString) (part : List Char)
    (h : ¬ "endpoint=".toList.isPrefixOf part = true) :
    (parseConnPart acc part).endpoint = acc.endpoint := by
  simp only [parseConnPart, if_neg h]
  split
  · rfl
  · rfl

theorem parseConnFold_endpoint (parts : List (List Char)) :
    ∀ acc : ParsedConnectionString,
      (parts.foldl parseConnPart acc).endpoint =
        lastPrefixValueAux "endpoint=" acc.endpoint parts := by
  induction parts with
  | nil => intro acc; rfl
  | cons part rest ih =>
    intro acc
    rw [List.foldl_cons, ih (parseConnPart acc part)]
    by_cases h : ("endpoint=".toList.isPrefixOf part) = true
    · simp only [lastPrefixValueAux, if_pos h, parseConnPart_endpoint_of_pre acc part h]
    · simp only [lastPrefixValueAux, if_neg h, parseConnPart_endpoint_of_not acc part h]

theorem parseConnFold_accessKey (parts : List (List Char)) :
    ∀ acc : ParsedConnectionString,
      (parts.foldl parseConnPart acc).accessKey =
        lastPrefixValueAux "accesskey=" acc.accessKey parts := by
  induction parts with
  | nil => intro acc; rfl
  | cons part rest ih =>
    intro acc
    rw [List.foldl_cons, ih (parseConnPart acc part)]
    by_cases hak : ("accesskey=".toList.isPrefixOf part) = true
    · have hne : ¬ ("endpoint=".toList.isPrefixOf part) = true :=
        fun hc => not_endpoint_and_accesskey part hc hak
      have hset : (parseConnPart acc part).accessKey =
          String.mk (part.drop "accesskey=".length) := by
        simp only [parseConnPart, if_neg hne, if_pos hak]
      simp only [lastPrefixValueAux, if_pos hak, hset]
    · have hkeep : (parseConnPart acc part).accessKey = acc.accessKey := by
        simp only [parseConnPart]
        split
        · rfl
        · rfl
      simp only [lastPrefixValueAux, if_neg hak, hkeep]

theorem parseConnFold_mk (parts : List (List Char)) :
    parts.foldl parseConnPart ⟨"", ""⟩ =
      ⟨lastPrefixValueAux "endpoint=" "" parts, lastPrefixValueAux "accesskey=" "" parts⟩ := by
  have hep := parseConnFold_endpoint parts ⟨"", ""⟩
  have hak := parseConnFold_accessKey parts ⟨"", ""⟩
  cases hF : parts.foldl parseConnPart ⟨"", ""⟩ with
  | mk e a =>
    rw [hF] at hep hak
    congr 1

/-! ## Claims about connection-string parsing -/

/-- Claim C9 fails as stated: the connection string endpoint=;accesskey=k
has both an endpoint= field and an accesskey= field among its
semicolon-separated parts, yet parsing fails with the endpoint
configuration error, because the code also requires the endpoint value
after the prefix to be non-empty. -/
theorem parseConnectionString_counterexample :
    ((stringsSplitChar ';' "endpoint=;accesskey=k".toList).any
        (fun p => "endpoint=".toList.isPrefixOf p) = true) ∧
    ((stringsSplitChar ';' "endpoint=;accesskey=k".toList).any
        (fun p => "accesskey=".toList.isPrefixOf p) = true) ∧
    parseConnectionString "endpoint=;accesskey=k" =
      .error "endpoint not found in connection string" :=
  ⟨by decide, by decide, rfl⟩

/-- Claim C9 (amended): parsing splits the connection string on
semicolons and succeeds exactly when the value carried by the last
endpoint=-prefixed part and the value carried by the last
accesskey=-prefixed part are both non-empty (a missing field counts as
an empty value); on success it yields exactly those two values, so the
relative order of the fields is irrelevant; when the endpoint value is
empty it fails with the endpoint configuration error, and otherwise when
the access-key value is empty it fails with the access-key configuration
error. -/
theorem parseConnectionString_spec (s : String) :
    (lastPrefixValue (stringsSplitChar ';' s.toList) "endpoint=" ≠ "" →
     lastPrefixValue (stringsSplitChar ';' s.toList) "accesskey=" ≠ "" →
     parseConnectionString s = .ok
       ⟨lastPrefixValue (stringsSplitChar ';' s.toList) "endpoint=",
        lastPrefixValue (stringsSplitChar ';' s.toList) "accesskey="⟩)
  ∧ (lastPrefixValue (stringsSplitChar ';' s.toList) "endpoint=" = "" →
     parseConnectionString s = .error "endpoint not found in connection string")
  ∧ (lastPrefixValue (stringsSplitChar ';' s.toList) "endpoint=" ≠ "" →
     lastPrefixValue (stringsSplitChar ';' s.toList) "accesskey=" = "" →
     parseConnectionString s = .error "access key not found in connection string") := by
  refine ⟨?_, ?_, ?_⟩
  · intro h1 h2
    simp only [lastPrefixValue] at h1 h2 ⊢
    simp only [parseConnectionString, parseConnFold_mk]
    rw [if_neg h1, if_neg h2]
  · intro h1
    simp only [lastPrefixValue] at h1
    simp only [parseConnectionString, parseConnFold_mk]
    rw [if_pos h1]
  · intro h1 h2
    simp only [lastPrefixValue] at h1 h2
    simp only [parseConnectionString, parseConnFold_mk]
    rw [if_neg h1, if_pos h2]

theorem parseConnectionString_spec_witness :
    lastPrefixValue (stringsSplitChar ';' "accesskey=k;endpoint=https://x".toList)
        "endpoint=" ≠ "" ∧
    parseConnectionString "accesskey=k;endpoint=https://x" = .ok
      ⟨lastPrefixValue (stringsSplitChar ';' "accesskey=k;endpoint=https://x".toList)
         "endpoint=",
       lastPrefixValue (stringsSplitChar ';' "accesskey=k;endpoint=https://x".toList)
         "accesskey="⟩ :=
  ⟨by decide,
   (parseConnectionString_spec "accesskey=k;endpoint=https://x").1 (by decide) (by decide)⟩

/-! ## Claim about the message builder -/

/-- Claim C7: build() succeeds exactly when the sender is set, at least
one recipient exists across to, cc and bcc, the subject is non-empty and
at least one of the plain-text and HTML bodies is non-empty; when build
fails it returns a single aggregate error that is non-empty and contains
the message of every violated invariant and of no satisfied one. -/
theorem build_iff_valid (b : MessageBuilder) :
    ((build b).isOk = true ↔
      (b.senderAddress ≠ "" ∧ (b.toRecipients ≠ [] ∨ b.cc ≠ [] ∨ b.bcc ≠ []) ∧
       b.subject ≠ "" ∧ (b.plainText ≠ "" ∨ b.html ≠ "")))
  ∧ (∀ errs, build b = .error errs →
      (errs ≠ [] ∧
       ("sender address is required" ∈ errs ↔ b.senderAddress = "") ∧
       ("at least one recipient is required" ∈ errs ↔
         (b.toRecipients = [] ∧ b.cc = [] ∧ b.bcc = [])) ∧
       ("subject is required" ∈ errs ↔ b.subject = "") ∧
       ("email content (plain text or HTML) is required" ∈ errs ↔
         (b.plainText = "" ∧ b.html = "")))) := by
  by_cases h1 : b.senderAddress = "" <;>
  by_cases h2 : b.toRecipients = [] <;>
  by_cases h3 : b.cc = [] <;>
  by_cases h4 : b.bcc = [] <;>
  by_cases h5 : b.subject = "" <;>
  by_cases h6 : b.plainText = "" <;>
  by_cases h7 : b.html = "" <;>
  simp_all [build, buildValidationErrors, Except.isOk, Except.toBool]

theorem build_iff_valid_witness :
    (build ⟨"a@x.com", [⟨"b@x.com", ""⟩], [], [], [], "Hi", "body", ""⟩).isOk = true ∧
    ("at least one recipient is required" ∈
        ["sender address is required", "at least one recipient is required",
         "subject is required", "email content (plain text or HTML) is required"] ↔
      ((⟨"", [], [], [], [], "", "", ""⟩ : MessageBuilder).toRecipients = [] ∧
       (⟨"", [], [], [], [], "", "", ""⟩ : MessageBuilder).cc = [] ∧
       (⟨"", [], [], [], [], "", "", ""⟩ : MessageBuilder).bcc = [])) :=
  ⟨(build_iff_valid ⟨"a@x.com", [⟨"b@x.com", ""⟩], [], [], [], "Hi", "body", ""⟩).1.mpr
      ⟨by decide, Or.inl (by simp), by decide, Or.inl (by decide)⟩,
   ((build_iff_valid ⟨"", [], [], [], [], "", "", ""⟩).2
      ["sender address is required", "at least one recipient is required",
       "subject is required", "email content (plain text or HTML) is required"]
      rfl).2.2.1⟩
